import Mathlib

/-!
Verification development for the `unsealer_samsung` decrypter
(`src/unsealer_samsung/decrypter.py`).

The Python source is shallowly embedded: bytes are `List Nat` (each entry a
byte value), Python `str` is Lean `String`, fallible code returns
`Option`/`Except`, and exceptions of the source are explicit error values.
External library primitives that the source calls are treated as follows:

* `base64.b64decode` (on `str` input) is modelled concretely, including the
  CPython lenient `binascii.a2b_base64` semantics (non-alphabet characters
  skipped, padding terminates decoding, `Incorrect padding` errors) and the
  implicit ASCII encoding of the input string.
* `bytes.decode("utf-8")` / UTF-8 encoding are modelled concretely and
  strictly (overlong forms, surrogates and out-of-range code points rejected).
* `Crypto.Util.Padding.unpad(style="pkcs7")` is modelled concretely.
* `hashlib.pbkdf2_hmac` and the AES-CBC block transform of
  `Crypto.Cipher.AES` are pure byte functions with no structure relevant to
  the claims; they are taken as parameters.  The argument-validation checks
  that `AES.new`/`decrypt` perform (key length, IV length, block alignment)
  are modelled explicitly, since control flow depends on them.
* `csv.DictReader` row splitting is taken as a parameter
  (`CsvReader`), because the csv module may raise while a block is being
  read; the reference instantiation `csvModel` reproduces the csv module's
  behaviour on quote-free `\n`-separated input (blank lines give empty rows,
  fields split on the `;` delimiter).  The reader is consumed eagerly.
* `json.loads` is taken as a parameter (`jsonLoads`), returning `none` for a
  `json.JSONDecodeError`; no claim depends on the structure of parsed JSON.
-/

/-! ## Python string primitives -/

/-- Whitespace as stripped by Python `str.strip()` (ASCII subset; the
claims' inputs contain no exotic Unicode whitespace). -/
def isPySpace (c : Char) : Bool :=
  c = ' ' || c = '\t' || c = '\n' || c = '\r' || c = '\x0b' || c = '\x0c'

/-- Python `str.strip()`. -/
def pythonStrip (s : String) : String :=
  String.mk (((s.toList.dropWhile isPySpace).reverse.dropWhile isPySpace).reverse)

/-- Python `str.startswith`. -/
def pyStartsWith (s pre : String) : Bool :=
  pre.toList.isPrefixOf s.toList

/-- Python `str.endswith`. -/
def pyEndsWith (s suf : String) : Bool :=
  suf.toList.isSuffixOf s.toList

/-- Python `str.count` of a single character (`clean_block.count(";")`). -/
def countChar (c : Char) (s : String) : Nat :=
  (s.toList.filter (fun d => d = c)).length

/-- Scanner for Python `str.split(sep)` with non-empty `sep`: grow a window
one character at a time and cut at the earliest point where the window ends
with the separator (leftmost, non-overlapping occurrences). -/
def pySplitAux (sep : List Char) : List Char → List Char → List (List Char)
  | [], win => [win]
  | c :: rest, win =>
    let win2 := win ++ [c]
    if sep.isSuffixOf win2 then
      (win2.take (win2.length - sep.length)) :: pySplitAux sep rest []
    else
      pySplitAux sep rest win2

/-- Python `str.split(sep)` for a non-empty separator. -/
def pySplit (s sep : String) : List String :=
  (pySplitAux sep.toList s.toList []).map String.mk

/-- Scanner for Python `str.replace(old, new)` with non-empty `old`:
replaced text is emitted outside the window and never re-matched. -/
def pyReplaceAux (pat rep : List Char) : List Char → List Char → List Char
  | [], win => win
  | c :: rest, win =>
    let win2 := win ++ [c]
    if pat.isSuffixOf win2 then
      (win2.take (win2.length - pat.length)) ++ rep ++ pyReplaceAux pat rep rest []
    else
      pyReplaceAux pat rep rest win2

/-- Python `str.replace(old, new)` for a non-empty `old`. -/
def pyReplace (s pat rep : String) : String :=
  String.mk (pyReplaceAux pat.toList rep.toList s.toList [])

/-! ## Base64 (CPython `base64.b64decode` on `str` input) -/

/-- Value of a base64 alphabet character, `none` for non-alphabet input
(skipped by the lenient decoder). -/
def b64CharVal (c : Char) : Option Nat :=
  if 'A' ≤ c ∧ c ≤ 'Z' then some (c.toNat - 'A'.toNat)
  else if 'a' ≤ c ∧ c ≤ 'z' then some (c.toNat - 'a'.toNat + 26)
  else if '0' ≤ c ∧ c ≤ '9' then some (c.toNat - '0'.toNat + 52)
  else if c = '+' then some 62
  else if c = '/' then some 63
  else none

/-- State of the `binascii.a2b_base64` scanner: position inside the current
4-character quantum, pending high bits, pending pad count, output bytes. -/
structure B64St where
  quadPos : Nat
  leftchar : Nat
  pads : Nat
  out : List Nat
deriving Repr, DecidableEq

/-- One scanner step of lenient `a2b_base64`; `none` signals that a full
padding group was reached and decoding stops. -/
def b64Step (st : B64St) (c : Char) : Option B64St :=
  if c = '=' then
    if st.quadPos ≥ 2 then
      if st.quadPos + (st.pads + 1) ≥ 4 then none
      else some { st with pads := st.pads + 1 }
    else some st
  else
    match b64CharVal c with
    | none => some st
    | some v =>
      match st.quadPos with
      | 0 => some { st with quadPos := 1, leftchar := v, pads := 0 }
      | 1 => some { quadPos := 2, leftchar := v % 16, pads := 0,
                    out := st.out ++ [st.leftchar * 4 + v / 16] }
      | 2 => some { quadPos := 3, leftchar := v % 4, pads := 0,
                    out := st.out ++ [st.leftchar * 16 + v / 4] }
      | _ => some { quadPos := 0, leftchar := 0, pads := 0,
                    out := st.out ++ [st.leftchar * 64 + v] }

/-- Run the scanner over the characters; `.inl` = finished by padding,
`.inr` = input exhausted with the final state. -/
def b64Run : B64St → List Char → B64St ⊕ B64St
  | st, [] => Sum.inr st
  | st, c :: cs =>
    match b64Step st c with
    | none => Sum.inl st
    | some st2 => b64Run st2 cs

/-- CPython `base64.b64decode` on a `str`: implicit ASCII encoding (a
non-ASCII character raises `ValueError`), then lenient `a2b_base64`;
`binascii.Error` on a leftover partial quantum. -/
def b64decodePy (s : String) : Option (List Nat) :=
  if s.toList.all (fun c => c.toNat < 128) then
    match b64Run ⟨0, 0, 0, []⟩ s.toList with
    | Sum.inl st => some st.out
    | Sum.inr st => if st.quadPos = 0 then some st.out else none
  else
    none

/-! ## UTF-8 (strict, as Python `bytes.decode("utf-8")` / `str.encode`) -/

/-- Is `b` a UTF-8 continuation byte? -/
def isCont (b : Nat) : Bool := 0x80 ≤ b ∧ b ≤ 0xBF

/-- Strict UTF-8 decoding of a byte list to code points: rejects overlong
forms, surrogates and values above `0x10FFFF`, as CPython's strict
`bytes.decode("utf-8")` does. -/
def utf8DecodeCore : List Nat → Option (List Nat)
  | [] => some []
  | b :: rest =>
    if b < 0x80 then
      (utf8DecodeCore rest).map (b :: ·)
    else if 0xC2 ≤ b ∧ b ≤ 0xDF then
      match rest with
      | c1 :: rest2 =>
        if isCont c1 then
          (utf8DecodeCore rest2).map (((b - 0xC0) * 64 + (c1 - 0x80)) :: ·)
        else none
      | _ => none
    else if 0xE0 ≤ b ∧ b ≤ 0xEF then
      match rest with
      | c1 :: c2 :: rest2 =>
        let lo1 := if b = 0xE0 then 0xA0 else 0x80
        let hi1 := if b = 0xED then 0x9F else 0xBF
        if (lo1 ≤ c1 ∧ c1 ≤ hi1) ∧ isCont c2 then
          (utf8DecodeCore rest2).map
            (((b - 0xE0) * 4096 + (c1 - 0x80) * 64 + (c2 - 0x80)) :: ·)
        else none
      | _ => none
    else if 0xF0 ≤ b ∧ b ≤ 0xF4 then
      match rest with
      | c1 :: c2 :: c3 :: rest2 =>
        let lo1 := if b = 0xF0 then 0x90 else 0x80
        let hi1 := if b = 0xF4 then 0x8F else 0xBF
        if (lo1 ≤ c1 ∧ c1 ≤ hi1) ∧ isCont c2 ∧ isCont c3 then
          (utf8DecodeCore rest2).map
            (((b - 0xF0) * 262144 + (c1 - 0x80) * 4096 +
              (c2 - 0x80) * 64 + (c3 - 0x80)) :: ·)
        else none
      | _ => none
    else none

/-- `bytes.decode("utf-8")` to a Lean `String`. -/
def utf8DecodeStr (bs : List Nat) : Option String :=
  (utf8DecodeCore bs).map (fun cps => String.mk (cps.map Char.ofNat))

/-- UTF-8 encoding of one code point. -/
def utf8EncodeChar (n : Nat) : List Nat :=
  if n < 0x80 then [n]
  else if n < 0x800 then [0xC0 + n / 64, 0x80 + n % 64]
  else if n < 0x10000 then
    [0xE0 + n / 4096, 0x80 + n / 64 % 64, 0x80 + n % 64]
  else
    [0xF0 + n / 262144, 0x80 + n / 4096 % 64, 0x80 + n / 64 % 64, 0x80 + n % 64]

/-- `str.encode("utf-8")` of a Lean `String`. -/
def utf8Encode (s : String) : List Nat :=
  (s.toList.map Char.toNat).flatMap utf8EncodeChar

/-! ## Field-decoding helpers of `decrypter.py` -/

/-- The fixed base64 sentinel that encodes a null value
(decodes to the bytes of `&&&NULL&&&`). -/
def nullSentinel : String := "JiYmTlVMTCYmJg=="

/-- `decrypter._safe_b64_decode`: empty or sentinel cells decode to the
empty string; otherwise base64-decode and UTF-8-decode, returning the
original string on any exception. -/
def safe_b64_decode (b64_string : String) : String :=
  if b64_string = "" ∨ pythonStrip b64_string = "" ∨
      pythonStrip b64_string = nullSentinel then
    ""
  else
    match b64decodePy b64_string with
    | none => b64_string
    | some bytes =>
      match utf8DecodeStr bytes with
      | none => b64_string
      | some t => t

/-- `decrypter._parse_multi_b64_field`: split on `&&&`, take the part of
each non-empty piece before the first `#`, base64-decode it, and keep the
non-empty results in order. -/
def parse_multi_b64_field (field_value : String) : List String :=
  if field_value = "" then []
  else
    (pySplit field_value "&&&").foldl
      (fun acc part =>
        if part = "" then acc
        else
          let b64_part := (pySplit part "#").headD ""
          let decoded := safe_b64_decode b64_part
          if decoded = "" then acc else acc ++ [decoded])
      []

/-- The regex `\.[a-zA-Z]{2,}` of `clean_android_url`: a dot followed by at
least two ASCII letters somewhere in the character list. -/
def isAsciiLetter (c : Char) : Bool :=
  ('a' ≤ c ∧ c ≤ 'z') ∨ ('A' ≤ c ∧ c ≤ 'Z')

/-- `re.search(r"\.[a-zA-Z]{2,}", url)` as a Boolean scan. -/
def hasDotTwoLetters : List Char → Bool
  | [] => false
  | c :: rest =>
    (c = '.' &&
      match rest with
      | a :: b :: _ => isAsciiLetter a && isAsciiLetter b
      | _ => false) ||
    hasDotTwoLetters rest

/-- `decrypter.clean_android_url`: URLs that are empty, contain a
dot-plus-two-letters pattern, or start with `http` are returned unchanged;
otherwise `android://` URLs are reduced to the part after the last `@`. -/
def clean_android_url (url : String) : String :=
  if url = "" ∨ hasDotTwoLetters url.toList ∨ pyStartsWith url "http" then url
  else if pyStartsWith url "android://" then (pySplit url "@").getLastD url
  else url


/-! ## Python exception values and library parameters -/

/-- The exception classes visible at the pipeline boundary.
`binascii.Error` is itself a `ValueError` subclass, but
`decrypt_and_parse` names the two separately in its `except` clause, so the
distinction is kept. -/
inductive PyErr where
  | valueError (msg : String)
  | binasciiError (msg : String)
  | otherError (msg : String)
deriving Repr, DecidableEq

/-- Decoded Python value stored in a Record: a string, a list of strings
(multi-valued fields), or a parsed JSON value of the opaque type `J`. -/
inductive PyVal (J : Type) where
  | str (s : String)
  | strList (l : List String)
  | json (j : J)
deriving Repr, DecidableEq

/-- A Record: insertion-ordered mapping from field name to decoded value
(Python `dict`). -/
abbrev Entry (J : Type) := List (String × PyVal J)

/-- The `csv.DictReader` back end: raw rows of a block's text (the header
row included), or the exception it raised while reading.  Blank lines give
the empty row `[]`, which `DictReader` skips. -/
abbrev CsvReader := String → Except PyErr (List (List String))

/-- Reference csv model for quote-free text: lines split on `\n`, fields
split on the `;` delimiter. -/
def csvModel : CsvReader := fun s =>
  .ok ((pySplit s "\n").map (fun line => if line = "" then [] else pySplit line ";"))

/-- Python `dict` update `m[k] = v`: replace in place, else append. -/
def dictSet {α : Type} (m : List (String × α)) (k : String) (v : α) :
    List (String × α) :=
  if m.any (fun p => p.1 = k) then
    m.map (fun p => if p.1 = k then (k, v) else p)
  else
    m ++ [(k, v)]

/-- `row.get(field)` on a `csv.DictReader` row: the row dict maps each
header name to the cell at its *last* occurrence in the header (later
`dict` assignments win), with `restval=None` for header slots beyond the
row's length; absent keys give `None`. -/
def dictRowGet (headers row : List String) (field : String) : Option String :=
  match ((headers.enum.filter (fun p => p.2 = field)).getLast?).map (fun p => p.1) with
  | none => none
  | some j => row.get? j

/-! ## Schema catalog (`TABLE_SCHEMA` of `parse_decrypted_content`) -/

/-- One entry of the schema catalog. -/
structure Schema where
  fingerprint : List String
  json_fields : List String := []
  multi_b64_fields : List String := []
  useful_fields : List String
deriving Repr, DecidableEq

/-- The `logins` schema. -/
def loginsSchema : Schema :=
  { fingerprint := ["origin_url", "username_value", "password_value"],
    json_fields := ["otp"],
    useful_fields := ["title", "username_value", "password_value",
                      "origin_url", "credential_memo", "otp"] }

/-- The `identities` schema. -/
def identitiesSchema : Schema :=
  { fingerprint := ["id_card_detail", "telephone_number_list",
                    "email_address_list"],
    json_fields := ["id_card_detail"],
    multi_b64_fields := ["telephone_number_list", "email_address_list"],
    useful_fields := ["name", "id_card_detail", "telephone_number_list",
                      "email_address_list"] }

/-- The `addresses` schema. -/
def addressesSchema : Schema :=
  { fingerprint := ["full_address", "street_address", "country_code"],
    useful_fields := ["full_name", "company_name", "street_address", "city",
                      "state", "zipcode", "country_code", "phone_number",
                      "email"] }

/-- The `notes` schema. -/
def notesSchema : Schema :=
  { fingerprint := ["note_title", "note_detail"],
    useful_fields := ["note_title", "note_detail"] }

/-- `TABLE_SCHEMA` in its declared (and significant) order. -/
def TABLE_SCHEMA : List (String × Schema) :=
  [("logins", loginsSchema), ("identities", identitiesSchema),
   ("addresses", addressesSchema), ("notes", notesSchema)]

/-! ## Field dispatch and per-block parsing -/

/-- `decrypter._parse_json_field`: unescape `\"`, strip blanks, strip one
layer of enclosing double quotes, and try `json.loads`; on a decode error
fall back to the original string. -/
def parse_json_field {J : Type} (jsonLoads : String → Option J)
    (field_value : String) : PyVal J :=
  let cleaned := pythonStrip (pyReplace field_value "\\\"" "\"")
  let cleaned2 :=
    if pyStartsWith cleaned "\"" ∧ pyEndsWith cleaned "\"" then
      String.mk ((cleaned.toList.drop 1).dropLast)
    else cleaned
  match jsonLoads cleaned2 with
  | some j => PyVal.json j
  | none => PyVal.str field_value

/-- The per-row loop body of `parse_decrypted_content` (lines 178-196):
walk the schema's `useful_fields`, skip absent cells and cells decoding to
empty, and apply the field's transform (JSON, multi-valued, URL cleaning,
or plain). -/
def entryStep {J : Type} (jsonLoads : String → Option J) (schema : Schema)
    (headers row : List String) (entry : Entry J) (field : String) : Entry J :=
  match dictRowGet headers row field with
  | none => entry
  | some raw_value_pre =>
    let raw_value := safe_b64_decode raw_value_pre
    if raw_value = "" then entry
    else if field ∈ schema.json_fields then
      dictSet entry field (parse_json_field jsonLoads raw_value)
    else if field ∈ schema.multi_b64_fields then
      dictSet entry field (PyVal.strList (parse_multi_b64_field raw_value))
    else if field = "origin_url" then
      dictSet entry field (PyVal.str (clean_android_url raw_value))
    else
      dictSet entry field (PyVal.str raw_value)

def buildEntry {J : Type} (jsonLoads : String → Option J) (schema : Schema)
    (headers row : List String) : Entry J :=
  schema.useful_fields.foldl (entryStep jsonLoads schema headers row) []

/-- The row loop of a classified block: non-empty entries are appended in
row order (lines 177-199). -/
def buildTableEntries {J : Type} (jsonLoads : String → Option J)
    (schema : Schema) (headers : List String) (dataRows : List (List String)) :
    List (Entry J) :=
  dataRows.foldl
    (fun acc row =>
      let entry := buildEntry jsonLoads schema headers row
      if entry.isEmpty then acc else acc ++ [entry])
    []

/-- What one iteration of the block loop does with a block, before the
result is merged into `all_tables`. -/
inductive BlockRes (J : Type) where
  | skipped
  | warned
  | table (name : String) (entries : List (Entry J)) (newUnknown : Nat)
deriving Repr, DecidableEq

/-- The body of the block loop of `parse_decrypted_content`
(lines 151-199): size gate, csv read (a raised exception gives `warned`,
the recorded-warning path of lines 205-210), header check, fingerprint
classification in catalog order, the `"24"` row-count-marker skip, unknown
table naming, and the row loop. -/
def blockOutcome {J : Type} (csvReader : CsvReader)
    (jsonLoads : String → Option J) (unknownCount : Nat) (block : String) :
    BlockRes J :=
  let clean_block := pythonStrip block
  if clean_block = "" ∨ countChar ';' clean_block < 2 then .skipped
  else
    match csvReader clean_block with
    | .error _ => .warned
    | .ok rows =>
      match rows.head? with
      | none => .skipped
      | some [] => .skipped
      | some headers =>
        let dataRows := (rows.drop 1).filter (fun r => r ≠ [])
        match TABLE_SCHEMA.find?
            (fun p => p.2.fingerprint.all (fun fp => fp ∈ headers)) with
        | some (name, schema) =>
          .table name (buildTableEntries jsonLoads schema headers dataRows)
            unknownCount
        | none =>
          if headers = ["24"] then .skipped
          else
            let cnt := unknownCount + 1
            let name := "unknown_data_" ++ toString cnt
            let schema : Schema := { fingerprint := [], useful_fields := headers }
            .table name (buildTableEntries jsonLoads schema headers dataRows) cnt

/-- Mutable state of the block loop: `all_tables`, `unknown_table_count`,
and the indices of blocks skipped with a warning. -/
structure PState (J : Type) where
  all_tables : List (String × List (Entry J))
  unknown_count : Nat
  warnings : List Nat
deriving Repr

/-- One iteration of `for block_index, block in enumerate(blocks)`:
a non-empty entry list is stored with `all_tables[table_name] = table_entries`
(lines 201-202), replacing any previous list under that name. -/
def parseBlockStep {J : Type} (csvReader : CsvReader)
    (jsonLoads : String → Option J) (st : PState J) (idxBlock : Nat × String) :
    PState J :=
  match blockOutcome csvReader jsonLoads st.unknown_count idxBlock.2 with
  | .skipped => st
  | .warned => { st with warnings := st.warnings ++ [idxBlock.1] }
  | .table name entries cnt =>
    if entries.isEmpty then { st with unknown_count := cnt }
    else { st with all_tables := dictSet st.all_tables name entries,
                   unknown_count := cnt }

/-- The block loop with the running `enumerate` index. -/
def parseBlocksGo {J : Type} (csvReader : CsvReader)
    (jsonLoads : String → Option J) : Nat → PState J → List String → PState J
  | _, st, [] => st
  | i, st, b :: bs =>
    parseBlocksGo csvReader jsonLoads (i + 1)
      (parseBlockStep csvReader jsonLoads st (i, b)) bs

/-- The whole block loop, from the initial empty state. -/
def parseBlocksState {J : Type} (csvReader : CsvReader)
    (jsonLoads : String → Option J) (blocks : List String) : PState J :=
  parseBlocksGo csvReader jsonLoads 0 ⟨[], 0, []⟩ blocks

/-- Message of the `ValueError` raised when nothing usable was found
(line 213): "decryption succeeded, but no valuable data was found in the
file". -/
def noDataMsg : String := "解密成功，但在文件中未找到任何有价值的数据。"

/-- Result of the block loop followed by the final emptiness check
(lines 212-215). -/
def parseBlocksResult {J : Type} (csvReader : CsvReader)
    (jsonLoads : String → Option J) (blocks : List String) :
    Except PyErr (List (String × List (Entry J))) :=
  let st := parseBlocksState csvReader jsonLoads blocks
  if st.all_tables.isEmpty then .error (.valueError noDataMsg)
  else .ok st.all_tables

/-- `decrypter.parse_decrypted_content`: split on the `next_table`
separator, run the block loop, and fail with the no-data `ValueError` when
`all_tables` stayed empty. -/
def parse_decrypted_content {J : Type} (csvReader : CsvReader)
    (jsonLoads : String → Option J) (decrypted_content : String) :
    Except PyErr (List (String × List (Entry J))) :=
  parseBlocksResult csvReader jsonLoads (pySplit decrypted_content "next_table")

/-! ## Envelope decoding (`decrypt_and_parse`) -/

/-- Combined bad-password / corrupt-file message raised at the pipeline
boundary (lines 251-255): "decryption failed; check your password and that
the file is a valid Samsung Pass backup". -/
def combinedErrMsg : String :=
  "解密失败。请仔细检查您的密码是否正确，并确认文件是有效的三星密码本备份。"

/-- Message of the catch-all branch (lines 256-260): "an unknown internal
error occurred during decryption or parsing". -/
def unknownErrMsg : String := "解密或解析过程中发生未知内部错误。文件可能已损坏。"

/-- The envelope slicing of lines 226-233: `binary_data[:20]` is the salt,
`binary_data[20:36]` the IV, `binary_data[36:]` the ciphertext (Python
slices truncate silently on short buffers). -/
def sliceEnvelope (binary_data : List Nat) :
    List Nat × List Nat × List Nat :=
  (binary_data.take 20, (binary_data.drop 20).take 16, binary_data.drop 36)

/-- `hashlib.pbkdf2_hmac("sha256", password, salt, iterations, dklen)`,
taken as an opaque deterministic byte function. -/
abbrev Kdf := String → List Nat → Nat → Nat → List Nat

/-- The raw AES-CBC decryption transform `key iv ciphertext ↦ plaintext`
of `Crypto.Cipher.AES`, taken as an opaque byte function (argument
validation is modelled separately). -/
abbrev AesCbc := List Nat → List Nat → List Nat → List Nat

/-- `Crypto.Util.Padding.unpad(data, 16, style="pkcs7")`: its checks in
source order (zero length, block alignment, padding byte in range, all
padding bytes equal). -/
def pkcs7Unpad (data : List Nat) : Except PyErr (List Nat) :=
  if data.length = 0 then
    .error (.valueError "Zero-length input cannot be unpadded")
  else if data.length % 16 ≠ 0 then
    .error (.valueError "Input data is not padded")
  else
    let padding_len := data.getLastD 0
    if padding_len < 1 ∨ padding_len > min 16 data.length then
      .error (.valueError "Padding is incorrect.")
    else if data.drop (data.length - padding_len)
        ≠ List.replicate padding_len padding_len then
      .error (.valueError "PKCS#7 padding is incorrect.")
    else
      .ok (data.take (data.length - padding_len))

/-- Lines 244-248 of the `try` body: after unpadding succeeded, decode the
plaintext as UTF-8 (a `UnicodeDecodeError` is a `ValueError` in Python's
class hierarchy) and parse it. -/
def decryptTextStage {J : Type} (csvReader : CsvReader)
    (jsonLoads : String → Option J) (unpadded : Except PyErr (List Nat)) :
    Except PyErr (List (String × List (Entry J))) :=
  match unpadded with
  | .error e => .error e
  | .ok decrypted_data =>
    match utf8DecodeStr decrypted_data with
    | none => .error (PyErr.valueError "invalid utf-8 in plaintext")
    | some text => parse_decrypted_content csvReader jsonLoads text

/-- Lines 226-246 of the `try` body, from the decoded binary buffer on:
envelope slicing, key derivation with the fixed 70000 iterations and
32-byte key, the `AES.new`/`decrypt` argument checks (key length, 16-byte
IV, block alignment), decryption and PKCS#7 unpadding. -/
def decryptBinaryStage {J : Type} (kdf : Kdf) (aes : AesCbc)
    (csvReader : CsvReader) (jsonLoads : String → Option J)
    (password : String) (binary_data : List Nat) :
    Except PyErr (List (String × List (Entry J))) :=
  let (salt, iv, encrypted_data) := sliceEnvelope binary_data
  let key := kdf password salt 70000 32
  if ¬(key.length = 16 ∨ key.length = 24 ∨ key.length = 32) then
    .error (PyErr.valueError "Incorrect AES key length")
  else if iv.length ≠ 16 then
    .error (PyErr.valueError "Incorrect IV length (it must be 16 bytes long)")
  else if encrypted_data.length % 16 ≠ 0 then
    .error
      (PyErr.valueError "Data must be padded to 16 byte boundary in CBC mode")
  else
    decryptTextStage csvReader jsonLoads (pkcs7Unpad (aes key iv encrypted_data))

/-- The `try` body of `decrypt_and_parse` (lines 222-248): outer UTF-8 and
base64 decode of the file bytes, then the binary stage. -/
def decryptAndParseBody {J : Type} (kdf : Kdf) (aes : AesCbc)
    (csvReader : CsvReader) (jsonLoads : String → Option J)
    (file_content_bytes : List Nat) (password : String) :
    Except PyErr (List (String × List (Entry J))) :=
  match utf8DecodeStr file_content_bytes with
  | none => .error (PyErr.valueError "invalid utf-8 in input file")
  | some fileText =>
    match b64decodePy (pythonStrip fileText) with
    | none => .error (PyErr.binasciiError "Invalid base64-encoded string")
    | some binary_data =>
      decryptBinaryStage kdf aes csvReader jsonLoads password binary_data

/-- Does `except (ValueError, binascii.Error)` catch this exception? -/
def isValueOrBinascii : PyErr → Bool
  | .valueError _ => true
  | .binasciiError _ => true
  | .otherError _ => false

/-- `decrypter.decrypt_and_parse`: the `try` body wrapped by the two
`except` clauses of lines 251-260 — a `ValueError` or `binascii.Error`
becomes the combined bad-password / corrupt-file message, anything else
the unknown-internal-error message. -/
def decrypt_and_parse {J : Type} (kdf : Kdf) (aes : AesCbc)
    (csvReader : CsvReader) (jsonLoads : String → Option J)
    (file_content_bytes : List Nat) (password : String) :
    Except PyErr (List (String × List (Entry J))) :=
  match decryptAndParseBody kdf aes csvReader jsonLoads file_content_bytes
      password with
  | .ok r => .ok r
  | .error e =>
    if isValueOrBinascii e then .error (.valueError combinedErrMsg)
    else .error (.valueError unknownErrMsg)

instance {ε α : Type} [DecidableEq ε] [DecidableEq α] :
    DecidableEq (Except ε α) := fun x y =>
  match x, y with
  | .ok a, .ok b =>
    if h : a = b then isTrue (by rw [h])
    else isFalse (fun he => h (Except.ok.inj he))
  | .error a, .error b =>
    if h : a = b then isTrue (by rw [h])
    else isFalse (fun he => h (Except.error.inj he))
  | .ok _, .error _ => isFalse (fun he => Except.noConfusion he)
  | .error _, .ok _ => isFalse (fun he => Except.noConfusion he)

instance {J : Type} [DecidableEq J] : DecidableEq (String × List (Entry J)) :=
  inferInstance

instance {J : Type} [DecidableEq J] :
    DecidableEq (List (String × List (Entry J))) :=
  fun a b => List.hasDecEq a b

instance {J : Type} [DecidableEq J] :
    DecidableEq (Except PyErr (List (String × List (Entry J)))) :=
  inferInstance

/-- A trivial `json.loads` instantiation for concrete runs: every input is
a decode error, so `_parse_json_field` falls back to the raw string. -/
def jsonNone : String → Option Unit := fun _ => none

/-- Identity cipher: decryption returns the ciphertext. -/
def aesId : AesCbc := fun _ _ ct => ct

/-- A key-derivation instantiation returning a fixed all-zero 32-byte key. -/
def kdfZero : Kdf := fun _ _ _ dklen => List.replicate dklen 0

/-- A csv reader instantiation that raises on the block content `B;B;B`
and otherwise behaves like the reference model. -/
def csvBoom : CsvReader := fun s =>
  if s = "B;B;B" then .error (.otherError "boom") else csvModel s

/-- Base64 text of a valid envelope: 20 zero salt bytes, 16 zero IV bytes,
and one ciphertext block that (under the identity cipher) unpads to the
UTF-8 text `hello`. -/
def c1FileB64 : String :=
  "AAAAAAAAAAAAAAAAAAAAAAAAAAAAAAAAAAAAAAAAAAAAAAAAaGVsbG8LCwsLCwsLCwsLCw=="

/-- The decoded 52-byte binary buffer of `c1FileB64`. -/
def c1Binary : List Nat :=
  [0, 0, 0, 0, 0, 0, 0, 0, 0, 0, 0, 0, 0, 0, 0, 0, 0, 0, 0, 0,
   0, 0, 0, 0, 0, 0, 0, 0, 0, 0, 0, 0, 0, 0, 0, 0,
   104, 101, 108, 108, 111, 11, 11, 11, 11, 11, 11, 11, 11, 11, 11, 11]


/-! ## Helper lemmas -/

theorem mem_dictSet_self {α : Type} (m : List (String × α)) (k : String)
    (v : α) : (k, v) ∈ dictSet m k v := by
  unfold dictSet
  by_cases h : m.any (fun p => p.1 = k)
  · rw [if_pos h]
    rw [List.any_eq_true] at h
    obtain ⟨p, hp, hpk⟩ := h
    refine List.mem_map.mpr ⟨p, hp, ?_⟩
    simp only [decide_eq_true_eq] at hpk
    rw [if_pos hpk]
  · rw [if_neg h]
    exact List.mem_append_right _ (List.mem_singleton.mpr rfl)

theorem mem_dictSet_of_mem_of_ne {α : Type} {m : List (String × α)}
    {p : String × α} (hp : p ∈ m) {k : String} (hne : p.1 ≠ k) (v : α) :
    p ∈ dictSet m k v := by
  unfold dictSet
  by_cases h : m.any (fun q => q.1 = k)
  · rw [if_pos h]
    refine List.mem_map.mpr ⟨p, hp, ?_⟩
    rw [if_neg hne]
  · rw [if_neg h]
    exact List.mem_append_left _ hp

theorem mem_of_mem_dictSet {α : Type} {m : List (String × α)} {k : String}
    {v : α} {p : String × α} (hp : p ∈ dictSet m k v) :
    p ∈ m ∨ p = (k, v) := by
  unfold dictSet at hp
  by_cases h : m.any (fun q => q.1 = k)
  · rw [if_pos h] at hp
    obtain ⟨q, hq, hqe⟩ := List.mem_map.mp hp
    by_cases hqk : q.1 = k
    · rw [if_pos hqk] at hqe
      exact Or.inr hqe.symm
    · rw [if_neg hqk] at hqe
      exact Or.inl (hqe ▸ hq)
  · rw [if_neg h] at hp
    rcases List.mem_append.mp hp with h1 | h1
    · exact Or.inl h1
    · exact Or.inr (List.mem_singleton.mp h1)

theorem not_mem_dictSet {α : Type} {m : List (String × α)} {f k : String}
    (hne : f ≠ k) (hm : ∀ v : α, (f, v) ∉ m) (w : α) :
    ∀ v : α, (f, v) ∉ dictSet m k w := by
  intro v hv
  rcases mem_of_mem_dictSet hv with h | h
  · exact hm v h
  · exact hne (congrArg Prod.fst h)

/-- A string with the `android://` prefix is non-empty and does not start
with `http`. -/
theorem android_prefix_facts (url : String)
    (h : pyStartsWith url "android://" = true) :
    url ≠ "" ∧ pyStartsWith url "http" = false := by
  unfold pyStartsWith at h ⊢
  rw [List.isPrefixOf_iff_prefix] at h
  obtain ⟨t, ht⟩ := h
  have hand : "android://".toList = ['a', 'n', 'd', 'r', 'o', 'i', 'd', ':', '/', '/'] := rfl
  rw [hand] at ht
  constructor
  · intro he
    rw [he] at ht
    have : ("" : String).toList = [] := rfl
    rw [this] at ht
    exact absurd (List.append_eq_nil.mp ht).1 (by decide)
  · rw [← Bool.not_eq_true, List.isPrefixOf_iff_prefix]
    intro hp
    obtain ⟨u, hu⟩ := hp
    have hhttp : "http".toList = ['h', 't', 't', 'p'] := rfl
    rw [hhttp, ← ht] at hu
    simp at hu

/-! ## C3: android URL normalization -/

/-- C3 counterexample: `clean_android_url` on the exact input
`android://AAA==@com.example.app` returns the input unchanged — not
`com.example.app` as the claim states — because the dot-followed-by-two-
letters check fires before the `android://` branch is reached. -/
theorem clean_android_url_dot_counterexample :
    clean_android_url "android://AAA==@com.example.app"
        = "android://AAA==@com.example.app" ∧
      "android://AAA==@com.example.app" ≠ "com.example.app" := by
  constructor
  · decide
  · decide

/-- C3 (amended): for an `android://` URL, normalization first tests for a
dot followed by at least two ASCII letters (and returns the URL unchanged
when the test fires); only otherwise is the substring after the last `@`
returned. -/
theorem clean_android_url_dot_check_first (url : String)
    (h : pyStartsWith url "android://" = true) :
    clean_android_url url =
      if hasDotTwoLetters url.toList then url
      else (pySplit url "@").getLastD url := by
  obtain ⟨hne, hhttp⟩ := android_prefix_facts url h
  by_cases hd : hasDotTwoLetters url.toList
  · simp [clean_android_url, String.toList, hd] at *
  · simp [clean_android_url, String.toList, hd, hne, hhttp, h] at *

/-- Witness for C3 (amended) at a dot-free `android://` URL. -/
theorem clean_android_url_dot_check_first_witness :
    pyStartsWith "android://AAA==@comexampleapp" "android://" = true ∧
      clean_android_url "android://AAA==@comexampleapp" =
        (if hasDotTwoLetters "android://AAA==@comexampleapp".toList then
          "android://AAA==@comexampleapp"
        else (pySplit "android://AAA==@comexampleapp" "@").getLastD
          "android://AAA==@comexampleapp") :=
  ⟨by decide, clean_android_url_dot_check_first _ (by decide)⟩

/-! ## C8: multi-valued field decoding -/

/-- C8: multi-valued decoding of `QQ==#x&&&Qg==#y` splits on `&&&`, takes
the part before each `#`, base64-decodes, and yields the ordered list
`["A", "B"]`. -/
theorem multi_b64_field_ordered_pair :
    parse_multi_b64_field "QQ==#x&&&Qg==#y" = ["A", "B"] := by decide

/-! ## C2: rows with empty title -/

/-- C2 counterexample: a block matching the login fingerprint whose single
data row has an empty title cell but non-empty username/password cells
still contributes a Record (without the `title` field) — the row is not
dropped as the claim states. -/
theorem title_empty_row_still_recorded :
    parse_decrypted_content csvModel jsonNone
        "title;username_value;password_value;origin_url\n;dXNlcg==;cGFzcw==;"
      = .ok [("logins", [[("username_value", PyVal.str "user"),
                          ("password_value", PyVal.str "pass")]])] := by
  decide

/-- C2 (amended): in a login-schema row whose title cell decodes to empty,
the title field is merely omitted; the Record is still built from the other
non-empty fields (here: the username cell), so the row still contributes a
Record whenever any other useful field decodes to non-empty. -/
theorem row_without_title_keeps_other_fields {J : Type}
    (jsonLoads : String → Option J) (t u : String)
    (ht : safe_b64_decode t = "") (hu : safe_b64_decode u ≠ "") :
    buildEntry jsonLoads loginsSchema
        ["title", "username_value", "password_value", "origin_url"]
        [t, u, "", ""]
      = [("username_value", PyVal.str (safe_b64_decode u))] := by
  have h0 : safe_b64_decode "" = "" := by decide
  have g1 : dictRowGet ["title", "username_value", "password_value", "origin_url"]
      [t, u, "", ""] "title" = some t := rfl
  have g2 : dictRowGet ["title", "username_value", "password_value", "origin_url"]
      [t, u, "", ""] "username_value" = some u := rfl
  have g3 : dictRowGet ["title", "username_value", "password_value", "origin_url"]
      [t, u, "", ""] "password_value" = some "" := rfl
  have g4 : dictRowGet ["title", "username_value", "password_value", "origin_url"]
      [t, u, "", ""] "origin_url" = some "" := rfl
  have g5 : dictRowGet ["title", "username_value", "password_value", "origin_url"]
      [t, u, "", ""] "credential_memo" = none := rfl
  have g6 : dictRowGet ["title", "username_value", "password_value", "origin_url"]
      [t, u, "", ""] "otp" = none := rfl
  simp only [buildEntry, entryStep, loginsSchema, List.foldl_cons, List.foldl_nil,
    g1, g2, g3, g4, g5, g6, ht, h0]
  simp [dictSet, hu]

/-- Witness for C2 (amended): the sentinel title cell decodes to empty,
the username cell to `user`. -/
theorem row_without_title_keeps_other_fields_witness :
    safe_b64_decode "JiYmTlVMTCYmJg==" = "" ∧
      safe_b64_decode "dXNlcg==" ≠ "" ∧
      buildEntry jsonNone loginsSchema
          ["title", "username_value", "password_value", "origin_url"]
          ["JiYmTlVMTCYmJg==", "dXNlcg==", "", ""]
        = [("username_value", PyVal.str (safe_b64_decode "dXNlcg=="))] :=
  ⟨by decide, by decide,
    row_without_title_keeps_other_fields jsonNone "JiYmTlVMTCYmJg==" "dXNlcg=="
      (by decide) (by decide)⟩

/-! ## C7: the null sentinel -/

theorem entryStep_not_mem {J : Type} (jsonLoads : String → Option J)
    (sch : Schema) (headers row : List String) (field c : String)
    (hget : dictRowGet headers row field = some c)
    (hsafe : safe_b64_decode c = "")
    (f : String) (acc : Entry J) (hmem : ∀ v, (field, v) ∉ acc) :
    ∀ v, (field, v) ∉ entryStep jsonLoads sch headers row acc f := by
  unfold entryStep
  cases hg : dictRowGet headers row f with
  | none => exact hmem
  | some rv =>
    by_cases hf : f = field
    · subst hf
      rw [hget] at hg
      cases hg
      simp only [hsafe, if_pos]
      exact hmem
    · by_cases he : safe_b64_decode rv = ""
      · simp only [he, if_pos]
        exact hmem
      · have hne : field ≠ f := fun h => hf h.symm
        simp only [if_neg he]
        split
        · exact not_mem_dictSet hne hmem _
        · split
          · exact not_mem_dictSet hne hmem _
          · split
            · exact not_mem_dictSet hne hmem _
            · exact not_mem_dictSet hne hmem _

theorem foldl_entryStep_not_mem {J : Type} (jsonLoads : String → Option J)
    (sch : Schema) (headers row : List String) (field c : String)
    (hget : dictRowGet headers row field = some c)
    (hsafe : safe_b64_decode c = "") :
    ∀ (fields : List String) (acc : Entry J), (∀ v, (field, v) ∉ acc) →
      ∀ v, (field, v) ∉ fields.foldl (entryStep jsonLoads sch headers row) acc
  | [], _, hmem => hmem
  | f :: fs, acc, hmem =>
    foldl_entryStep_not_mem jsonLoads sch headers row field c hget hsafe fs _
      (entryStep_not_mem jsonLoads sch headers row field c hget hsafe f acc hmem)

/-- C7: in any schema, a cell that is empty (or whitespace) or equals the
base64 null sentinel `JiYmTlVMTCYmJg==` decodes to the empty string, and
its field never appears in the Record built from that row. -/
theorem sentinel_cell_drops_field {J : Type} (jsonLoads : String → Option J)
    (sch : Schema) (headers row : List String) (field c : String)
    (hget : dictRowGet headers row field = some c)
    (hc : pythonStrip c = "" ∨ pythonStrip c = nullSentinel) :
    safe_b64_decode c = "" ∧
      ∀ v : PyVal J, (field, v) ∉ buildEntry jsonLoads sch headers row := by
  have hsafe : safe_b64_decode c = "" := by
    unfold safe_b64_decode
    rcases hc with h | h
    · rw [if_pos (Or.inr (Or.inl h))]
    · rw [if_pos (Or.inr (Or.inr h))]
  exact ⟨hsafe,
    foldl_entryStep_not_mem jsonLoads sch headers row field c hget hsafe
      sch.useful_fields [] (fun v hv => absurd hv (List.not_mem_nil _))⟩

/-- Witness for C7: the sentinel in a login row's title cell. -/
theorem sentinel_cell_drops_field_witness :
    dictRowGet ["title", "username_value"] ["JiYmTlVMTCYmJg==", "dXNlcg=="]
        "title" = some "JiYmTlVMTCYmJg==" ∧
      safe_b64_decode "JiYmTlVMTCYmJg==" = "" ∧
      ∀ v : PyVal Unit, ("title", v) ∉
        buildEntry jsonNone loginsSchema ["title", "username_value"]
          ["JiYmTlVMTCYmJg==", "dXNlcg=="] :=
  ⟨by decide,
    sentinel_cell_drops_field jsonNone loginsSchema ["title", "username_value"]
      ["JiYmTlVMTCYmJg==", "dXNlcg=="] "title" "JiYmTlVMTCYmJg==" (by decide)
      (Or.inr (by decide))⟩

/-! ## C9: syntactically invalid cells -/


theorem entryStep_writes_str {J : Type} (jsonLoads : String → Option J)
    (sch : Schema) (headers row : List String) (field c : String)
    (hget : dictRowGet headers row field = some c)
    (hsafe : safe_b64_decode c = c) (hcne : c ≠ "")
    (hjson : field ∉ sch.json_fields) (hmulti : field ∉ sch.multi_b64_fields)
    (hurl : field ≠ "origin_url") (acc : Entry J) :
    (field, PyVal.str c) ∈ entryStep jsonLoads sch headers row acc field := by
  unfold entryStep
  rw [hget]
  simp only [hsafe, if_neg hcne]
  rw [if_neg (by simpa using hjson), if_neg (by simpa using hmulti),
    if_neg hurl]
  exact mem_dictSet_self acc field (PyVal.str c)

theorem entryStep_keeps_str {J : Type} (jsonLoads : String → Option J)
    (sch : Schema) (headers row : List String) (field c : String)
    (hget : dictRowGet headers row field = some c)
    (hsafe : safe_b64_decode c = c) (hcne : c ≠ "")
    (hjson : field ∉ sch.json_fields) (hmulti : field ∉ sch.multi_b64_fields)
    (hurl : field ≠ "origin_url") (acc : Entry J) (f : String)
    (hmem : (field, PyVal.str c) ∈ acc) :
    (field, PyVal.str c) ∈ entryStep jsonLoads sch headers row acc f := by
  by_cases hf : f = field
  · subst hf
    exact entryStep_writes_str jsonLoads sch headers row f c hget hsafe
      hcne hjson hmulti hurl acc
  · unfold entryStep
    cases hg : dictRowGet headers row f with
    | none => exact hmem
    | some rv =>
      by_cases he : safe_b64_decode rv = ""
      · simp only [he, if_pos]
        exact hmem
      · have hne : field ≠ f := fun h => hf h.symm
        simp only [if_neg he]
        split
        · exact mem_dictSet_of_mem_of_ne hmem hne _
        · split
          · exact mem_dictSet_of_mem_of_ne hmem hne _
          · split
            · exact mem_dictSet_of_mem_of_ne hmem hne _
            · exact mem_dictSet_of_mem_of_ne hmem hne _

theorem foldl_entryStep_mem_str {J : Type} (jsonLoads : String → Option J)
    (sch : Schema) (headers row : List String) (field c : String)
    (hget : dictRowGet headers row field = some c)
    (hsafe : safe_b64_decode c = c) (hcne : c ≠ "")
    (hjson : field ∉ sch.json_fields) (hmulti : field ∉ sch.multi_b64_fields)
    (hurl : field ≠ "origin_url") :
    ∀ (fields : List String) (acc : Entry J),
      (field ∈ fields ∨ (field, PyVal.str c) ∈ acc) →
      (field, PyVal.str c) ∈
        fields.foldl (entryStep jsonLoads sch headers row) acc := by
  intro fields
  induction fields with
  | nil =>
    intro acc h
    rcases h with h | h
    · exact absurd h (List.not_mem_nil _)
    · exact h
  | cons f fs ih =>
    intro acc h
    rw [List.foldl_cons]
    rcases h with h | h
    · rcases List.mem_cons.mp h with h | h
      · subst h
        exact ih _ (Or.inr (entryStep_writes_str jsonLoads sch headers row
          field c hget hsafe hcne hjson hmulti hurl acc))
      · exact ih _ (Or.inl h)
    · exact ih _ (Or.inr (entryStep_keeps_str jsonLoads sch headers row
        field c hget hsafe hcne hjson hmulti hurl acc f h))

/-- C9 (amended): field decoding is total and never drops a syntactically
invalid cell — for a non-empty, non-sentinel cell that fails base64 or
UTF-8 decoding, `_safe_b64_decode` returns the original text, and for a
*plain* field (not JSON, not multi-valued, not `origin_url`) that original
text is retained verbatim as the field's value in the Record; for
JSON/multi-valued/`origin_url` fields the declared transform is applied to
the fallback text instead. -/
theorem invalid_plain_cell_retained {J : Type} (jsonLoads : String → Option J)
    (sch : Schema) (headers row : List String) (field c : String)
    (hget : dictRowGet headers row field = some c)
    (hsent : ¬(c = "" ∨ pythonStrip c = "" ∨ pythonStrip c = nullSentinel))
    (hdec : b64decodePy c = none ∨
      ∃ bs, b64decodePy c = some bs ∧ utf8DecodeStr bs = none)
    (hfield : field ∈ sch.useful_fields)
    (hjson : field ∉ sch.json_fields) (hmulti : field ∉ sch.multi_b64_fields)
    (hurl : field ≠ "origin_url") :
    safe_b64_decode c = c ∧
      (field, PyVal.str c) ∈ buildEntry jsonLoads sch headers row := by
  have hsafe : safe_b64_decode c = c := by
    unfold safe_b64_decode
    rw [if_neg hsent]
    rcases hdec with h | ⟨bs, h1, h2⟩
    · rw [h]
    · rw [h1]
      show (match utf8DecodeStr bs with | none => c | some t => t) = c
      rw [h2]
  have hcne : c ≠ "" := fun h => hsent (Or.inl h)
  exact ⟨hsafe,
    foldl_entryStep_mem_str jsonLoads sch headers row field c hget hsafe hcne
      hjson hmulti hurl sch.useful_fields [] (Or.inl hfield)⟩

/-- C9 counterexample: the non-empty, non-sentinel cell
`android://AAA@foo` is not valid base64, so `_safe_b64_decode` falls back
to the original text — but because the field is `origin_url`, the URL
normalizer then rewrites it to `foo`, so the original cell text is *not*
retained verbatim in the Record. -/
theorem invalid_cell_transformed_counterexample :
    b64decodePy "android://AAA@foo" = none ∧
      safe_b64_decode "android://AAA@foo" = "android://AAA@foo" ∧
      buildEntry jsonNone loginsSchema
          ["origin_url", "username_value", "password_value"]
          ["android://AAA@foo", "", ""]
        = [("origin_url", PyVal.str "foo")] ∧
      ("foo" : String) ≠ "android://AAA@foo" := by
  refine ⟨by decide, by decide, by decide, by decide⟩

/-- Witness for C9 (amended) at the invalid plain cell `xyz` in a `title`
field. -/
theorem invalid_plain_cell_retained_witness :
    dictRowGet ["title"] ["xyz"] "title" = some "xyz" ∧
      safe_b64_decode "xyz" = "xyz" ∧
      ("title", PyVal.str "xyz") ∈
        buildEntry jsonNone loginsSchema ["title"] ["xyz"] :=
  ⟨by decide,
    invalid_plain_cell_retained jsonNone loginsSchema ["title"] ["xyz"]
      "title" "xyz" (by decide) (by decide) (Or.inl (by decide))
      (by decide) (by decide) (by decide) (by decide)⟩

/-! ## C4: parse fails exactly on an empty result -/


theorem buildTableEntries_mem_ne_nil {J : Type} (jsonLoads : String → Option J)
    (sch : Schema) (headers : List String) :
    ∀ (rows : List (List String)) (acc : List (Entry J)),
      (∀ e ∈ acc, e ≠ []) →
      ∀ e ∈ rows.foldl
        (fun acc row =>
          let entry := buildEntry jsonLoads sch headers row
          if entry.isEmpty then acc else acc ++ [entry]) acc, e ≠ []
  | [], acc, hacc => hacc
  | r :: rs, acc, hacc => by
    rw [List.foldl_cons]
    refine buildTableEntries_mem_ne_nil jsonLoads sch headers rs _ ?_
    intro e he
    dsimp only at he
    by_cases hb : (buildEntry jsonLoads sch headers r).isEmpty
    · rw [if_pos hb] at he
      exact hacc e he
    · rw [if_neg hb] at he
      rcases List.mem_append.mp he with h | h
      · exact hacc e h
      · rw [List.mem_singleton.mp h]
        intro hnil
        rw [hnil] at hb
        exact hb rfl

theorem blockOutcome_entries_ne_nil {J : Type} (csvReader : CsvReader)
    (jsonLoads : String → Option J) (cnt : Nat) (block : String)
    {name : String} {entries : List (Entry J)} {cnt2 : Nat}
    (h : blockOutcome csvReader jsonLoads cnt block = .table name entries cnt2) :
    ∀ e ∈ entries, e ≠ [] := by
  unfold blockOutcome at h
  dsimp only at h
  split at h
  · exact absurd h (by simp)
  · split at h
    · exact absurd h (by simp)
    · split at h
      · exact absurd h (by simp)
      · exact absurd h (by simp)
      · split at h
        · rename_i hfind
          rw [BlockRes.table.injEq] at h
          obtain ⟨h1, h2, h3⟩ := h
          subst h2
          exact buildTableEntries_mem_ne_nil jsonLoads _ _ _ []
            (fun e he => absurd he (List.not_mem_nil e))
        · split at h
          · exact absurd h (by simp)
          · rw [BlockRes.table.injEq] at h
            obtain ⟨h1, h2, h3⟩ := h
            subst h2
            exact buildTableEntries_mem_ne_nil jsonLoads _ _ _ []
              (fun e he => absurd he (List.not_mem_nil e))

theorem parseBlockStep_invariant {J : Type} (csvReader : CsvReader)
    (jsonLoads : String → Option J) (st : PState J) (ib : Nat × String)
    (hinv : ∀ pr ∈ st.all_tables, pr.2 ≠ [] ∧ ∀ e ∈ pr.2, e ≠ []) :
    ∀ pr ∈ (parseBlockStep csvReader jsonLoads st ib).all_tables,
      pr.2 ≠ [] ∧ ∀ e ∈ pr.2, e ≠ [] := by
  cases ho : blockOutcome csvReader jsonLoads st.unknown_count ib.2 with
  | skipped =>
    unfold parseBlockStep
    rw [ho]
    exact hinv
  | warned =>
    unfold parseBlockStep
    rw [ho]
    exact hinv
  | table name entries cnt =>
    unfold parseBlockStep
    rw [ho]
    dsimp only
    by_cases he : entries.isEmpty
    · rw [if_pos he]
      exact hinv
    · rw [if_neg he]
      intro pr hpr
      dsimp only at hpr
      rcases mem_of_mem_dictSet hpr with h | h
      · exact hinv pr h
      · rw [h]
        refine ⟨?_, blockOutcome_entries_ne_nil csvReader jsonLoads
          st.unknown_count ib.2 ho⟩
        intro hnil
        rw [show entries = [] from hnil] at he
        exact he rfl

theorem parseBlocksGo_invariant {J : Type} (csvReader : CsvReader)
    (jsonLoads : String → Option J) :
    ∀ (blocks : List String) (i : Nat) (st : PState J),
      (∀ pr ∈ st.all_tables, pr.2 ≠ [] ∧ ∀ e ∈ pr.2, e ≠ []) →
      ∀ pr ∈ (parseBlocksGo csvReader jsonLoads i st blocks).all_tables,
        pr.2 ≠ [] ∧ ∀ e ∈ pr.2, e ≠ []
  | [], _, _, hinv => hinv
  | b :: bs, i, st, hinv =>
    parseBlocksGo_invariant csvReader jsonLoads bs (i + 1) _
      (parseBlockStep_invariant csvReader jsonLoads st (i, b) hinv)

/-- C4: the parse step fails if and only if the accumulated result mapping
is empty, its only failure is the no-data `ValueError`, and on success the
returned mapping is non-empty, every table holds at least one record, and
every record is non-empty. -/
theorem parse_noData_iff_empty {J : Type} (csvReader : CsvReader)
    (jsonLoads : String → Option J) (p : String) :
    (∀ tables, parse_decrypted_content csvReader jsonLoads p = .ok tables →
        tables ≠ [] ∧ ∀ pr ∈ tables, pr.2 ≠ [] ∧ ∀ e ∈ pr.2, e ≠ []) ∧
      (parse_decrypted_content csvReader jsonLoads p
          = .error (.valueError noDataMsg) ↔
        (parseBlocksState csvReader jsonLoads
          (pySplit p "next_table")).all_tables = []) ∧
      ∀ err, parse_decrypted_content csvReader jsonLoads p = .error err →
        err = .valueError noDataMsg := by
  unfold parse_decrypted_content parseBlocksResult
  by_cases he : (parseBlocksState csvReader jsonLoads
      (pySplit p "next_table")).all_tables.isEmpty
  · rw [if_pos he]
    refine ⟨fun tables h => absurd h (by simp), ?_, fun err h => ?_⟩
    · simp [List.isEmpty_iff.mp he]
    · cases h
      rfl
  · rw [if_neg he]
    refine ⟨fun tables h => ?_, ?_, fun err h => absurd h (by simp)⟩
    · cases h
      refine ⟨fun hnil => ?_, ?_⟩
      · rw [hnil] at he
        exact he rfl
      · exact parseBlocksGo_invariant csvReader jsonLoads _ 0 ⟨[], 0, []⟩
          (fun pr hpr => absurd hpr (List.not_mem_nil pr))
    · constructor
      · intro h
        exact absurd h (by simp)
      · intro h
        rw [h] at he
        exact absurd rfl he

/-- Witness for C4 at a plaintext with no usable data. -/
theorem parse_noData_iff_empty_witness :
    parse_decrypted_content csvModel jsonNone "hello"
      = .error (.valueError noDataMsg) :=
  (parse_noData_iff_empty csvModel jsonNone "hello").2.1.mpr (by decide)

/-! ## C6: malformed blocks are skipped, not fatal -/


theorem parseBlockStep_tables_eq {J : Type} (csvReader : CsvReader)
    (jsonLoads : String → Option J) (st1 st2 : PState J) (i1 i2 : Nat)
    (b : String) (ht : st1.all_tables = st2.all_tables)
    (hc : st1.unknown_count = st2.unknown_count) :
    (parseBlockStep csvReader jsonLoads st1 (i1, b)).all_tables
        = (parseBlockStep csvReader jsonLoads st2 (i2, b)).all_tables ∧
      (parseBlockStep csvReader jsonLoads st1 (i1, b)).unknown_count
        = (parseBlockStep csvReader jsonLoads st2 (i2, b)).unknown_count := by
  unfold parseBlockStep
  dsimp only
  rw [hc, ht]
  cases blockOutcome csvReader jsonLoads st2.unknown_count b with
  | skipped => exact ⟨ht, hc⟩
  | warned => exact ⟨rfl, rfl⟩
  | table name entries cnt =>
    dsimp only
    by_cases he : entries.isEmpty
    · simp only [if_pos he]
      exact ⟨trivial, trivial⟩
    · simp only [if_neg he]
      exact ⟨trivial, trivial⟩

theorem parseBlocksGo_tables_eq {J : Type} (csvReader : CsvReader)
    (jsonLoads : String → Option J) :
    ∀ (bs : List String) (i j : Nat) (st1 st2 : PState J),
      st1.all_tables = st2.all_tables →
      st1.unknown_count = st2.unknown_count →
      (parseBlocksGo csvReader jsonLoads i st1 bs).all_tables
          = (parseBlocksGo csvReader jsonLoads j st2 bs).all_tables ∧
        (parseBlocksGo csvReader jsonLoads i st1 bs).unknown_count
          = (parseBlocksGo csvReader jsonLoads j st2 bs).unknown_count
  | [], _, _, _, _, ht, hc => ⟨ht, hc⟩
  | b :: bs, i, j, st1, st2, ht, hc => by
    rw [parseBlocksGo, parseBlocksGo]
    obtain ⟨ht2, hc2⟩ := parseBlockStep_tables_eq csvReader jsonLoads st1 st2
      i j b ht hc
    exact parseBlocksGo_tables_eq csvReader jsonLoads bs (i + 1) (j + 1) _ _
      ht2 hc2

theorem blockOutcome_reader_error {J : Type} (csvReader : CsvReader)
    (jsonLoads : String → Option J) (cnt : Nat) (b : String) (err : PyErr)
    (h1 : pythonStrip b ≠ "")
    (h2 : ¬countChar ';' (pythonStrip b) < 2)
    (h3 : csvReader (pythonStrip b) = .error err) :
    blockOutcome csvReader jsonLoads cnt b = (.warned : BlockRes J) := by
  unfold blockOutcome
  dsimp only
  rw [if_neg (not_or.mpr ⟨h1, h2⟩), h3]

theorem parseBlockStep_warned {J : Type} (csvReader : CsvReader)
    (jsonLoads : String → Option J) (st : PState J) (i : Nat) (b : String)
    (h : blockOutcome csvReader jsonLoads st.unknown_count b
      = (.warned : BlockRes J)) :
    parseBlockStep csvReader jsonLoads st (i, b)
      = { st with warnings := st.warnings ++ [i] } := by
  unfold parseBlockStep
  dsimp only
  rw [h]

theorem parseBlockStep_warnings_mono {J : Type} (csvReader : CsvReader)
    (jsonLoads : String → Option J) (st : PState J) (i : Nat) (b : String)
    (x : Nat) (hx : x ∈ st.warnings) :
    x ∈ (parseBlockStep csvReader jsonLoads st (i, b)).warnings := by
  unfold parseBlockStep
  dsimp only
  cases blockOutcome csvReader jsonLoads st.unknown_count b with
  | skipped => exact hx
  | warned => exact List.mem_append_left _ hx
  | table name entries cnt =>
    dsimp only
    by_cases he : entries.isEmpty
    · rw [if_pos he]
      exact hx
    · rw [if_neg he]
      exact hx

theorem parseBlocksGo_warnings_mono {J : Type} (csvReader : CsvReader)
    (jsonLoads : String → Option J) :
    ∀ (bs : List String) (i : Nat) (st : PState J) (x : Nat),
      x ∈ st.warnings →
      x ∈ (parseBlocksGo csvReader jsonLoads i st bs).warnings
  | [], _, _, _, hx => hx
  | b :: bs, i, st, x, hx =>
    parseBlocksGo_warnings_mono csvReader jsonLoads bs (i + 1) _ x
      (parseBlockStep_warnings_mono csvReader jsonLoads st i b x hx)

theorem parseBlocksGo_drop_bad {J : Type} (csvReader : CsvReader)
    (jsonLoads : String → Option J) (bad : String)
    (hbad : ∀ cnt, blockOutcome csvReader jsonLoads cnt bad
      = (.warned : BlockRes J)) :
    ∀ (bs1 : List String) (bs2 : List String) (i j : Nat) (st1 st2 : PState J),
      st1.all_tables = st2.all_tables →
      st1.unknown_count = st2.unknown_count →
      (parseBlocksGo csvReader jsonLoads i st1 (bs1 ++ bad :: bs2)).all_tables
        = (parseBlocksGo csvReader jsonLoads j st2 (bs1 ++ bs2)).all_tables
  | [], bs2, i, j, st1, st2, ht, hc => by
    rw [List.nil_append, List.nil_append, parseBlocksGo,
      parseBlockStep_warned csvReader jsonLoads st1 i bad (hbad _)]
    exact (parseBlocksGo_tables_eq csvReader jsonLoads bs2 (i + 1) j
      { st1 with warnings := st1.warnings ++ [i] } st2 ht hc).1
  | b :: bs1, bs2, i, j, st1, st2, ht, hc => by
    rw [List.cons_append, List.cons_append, parseBlocksGo, parseBlocksGo]
    obtain ⟨ht2, hc2⟩ := parseBlockStep_tables_eq csvReader jsonLoads st1 st2
      i j b ht hc
    exact parseBlocksGo_drop_bad csvReader jsonLoads bad hbad bs1 bs2
      (i + 1) (j + 1) _ _ ht2 hc2

theorem parseBlocksGo_bad_warning {J : Type} (csvReader : CsvReader)
    (jsonLoads : String → Option J) (bad : String)
    (hbad : ∀ cnt, blockOutcome csvReader jsonLoads cnt bad
      = (.warned : BlockRes J)) :
    ∀ (bs1 bs2 : List String) (i : Nat) (st : PState J),
      i + bs1.length ∈
        (parseBlocksGo csvReader jsonLoads i st (bs1 ++ bad :: bs2)).warnings
  | [], bs2, i, st => by
    rw [List.nil_append, parseBlocksGo,
      parseBlockStep_warned csvReader jsonLoads st i bad (hbad _)]
    refine parseBlocksGo_warnings_mono csvReader jsonLoads bs2 (i + 1) _ _ ?_
    simp
  | b :: bs1, bs2, i, st => by
    rw [List.cons_append, parseBlocksGo]
    have := parseBlocksGo_bad_warning csvReader jsonLoads bad hbad bs1 bs2
      (i + 1) (parseBlockStep csvReader jsonLoads st (i, b))
    have harith : i + 1 + bs1.length = i + (b :: bs1).length := by
      simp [List.length_cons]
      omega
    rw [harith] at this
    exact this

/-- C6: a block on which the csv reader raises never aborts the whole
parse: removing the erroring block from the block sequence leaves the parse
result unchanged (so every other well-formed block's records survive), the
erroring block's index is recorded as a warning, and the same holds for any
plaintext splitting into that block sequence. -/
theorem malformed_block_transparent {J : Type} (csvReader : CsvReader)
    (jsonLoads : String → Option J) (bs1 bs2 : List String) (bad : String)
    (err : PyErr) (h1 : pythonStrip bad ≠ "")
    (h2 : ¬countChar ';' (pythonStrip bad) < 2)
    (h3 : csvReader (pythonStrip bad) = .error err) :
    parseBlocksResult csvReader jsonLoads (bs1 ++ bad :: bs2)
        = parseBlocksResult csvReader jsonLoads (bs1 ++ bs2) ∧
      bs1.length ∈
        (parseBlocksState csvReader jsonLoads (bs1 ++ bad :: bs2)).warnings ∧
      ∀ p : String, pySplit p "next_table" = bs1 ++ bad :: bs2 →
        parse_decrypted_content csvReader jsonLoads p
          = parseBlocksResult csvReader jsonLoads (bs1 ++ bs2) := by
  have hbad : ∀ cnt, blockOutcome csvReader jsonLoads cnt bad
      = (.warned : BlockRes J) :=
    fun cnt => blockOutcome_reader_error csvReader jsonLoads cnt bad err
      h1 h2 h3
  have htab := parseBlocksGo_drop_bad csvReader jsonLoads bad hbad bs1 bs2
    0 0 ⟨[], 0, []⟩ ⟨[], 0, []⟩ rfl rfl
  have hres : parseBlocksResult csvReader jsonLoads (bs1 ++ bad :: bs2)
      = parseBlocksResult csvReader jsonLoads (bs1 ++ bs2) := by
    unfold parseBlocksResult parseBlocksState
    dsimp only
    rw [htab]
  refine ⟨hres, ?_, fun p hp => ?_⟩
  · have hw := parseBlocksGo_bad_warning csvReader jsonLoads bad hbad bs1 bs2
      0 ⟨[], 0, []⟩
    unfold parseBlocksState
    simpa using hw
  · unfold parse_decrypted_content
    rw [hp]
    exact hres

/-- Witness for C6: a logins block, an erroring block, and a notes block. -/
theorem malformed_block_transparent_witness :
    csvBoom (pythonStrip "B;B;B") = .error (.otherError "boom") ∧
      parseBlocksResult csvBoom jsonNone
          ["title;username_value;password_value;origin_url\n;dXNlcg==;cGFzcw==;",
            "B;B;B", "note_title;note_detail\nbm90ZQ==;ZGV0YWls"]
        = parseBlocksResult csvBoom jsonNone
          ["title;username_value;password_value;origin_url\n;dXNlcg==;cGFzcw==;",
            "note_title;note_detail\nbm90ZQ==;ZGV0YWls"] ∧
      1 ∈ (parseBlocksState csvBoom jsonNone
          ["title;username_value;password_value;origin_url\n;dXNlcg==;cGFzcw==;",
            "B;B;B", "note_title;note_detail\nbm90ZQ==;ZGV0YWls"]).warnings :=
  have h := malformed_block_transparent csvBoom jsonNone
    ["title;username_value;password_value;origin_url\n;dXNlcg==;cGFzcw==;"]
    ["note_title;note_detail\nbm90ZQ==;ZGV0YWls"] "B;B;B"
    (.otherError "boom") (by decide) (by decide) (by decide)
  ⟨by decide, h.1, h.2.1⟩

/-! ## C10: same-name tables replace, not append -/

/-- C10: when two blocks classify to the same table name and both produce
at least one record, `all_tables[table_name] = table_entries` silently
replaces the earlier block's records: the Result holds exactly the later
block's records under that name. -/
theorem same_table_overwritten {J : Type} (csvReader : CsvReader)
    (jsonLoads : String → Option J) (g1 g2 n : String)
    (e1 e2 : List (Entry J)) (c1 c2 : Nat)
    (h1 : blockOutcome csvReader jsonLoads 0 g1 = .table n e1 c1)
    (h2 : blockOutcome csvReader jsonLoads c1 g2 = .table n e2 c2)
    (he1 : e1.isEmpty = false) (he2 : e2.isEmpty = false) :
    parseBlocksResult csvReader jsonLoads [g1, g2] = .ok [(n, e2)] := by
  have hs1 : parseBlockStep csvReader jsonLoads ⟨[], 0, []⟩ (0, g1)
      = ⟨[(n, e1)], c1, []⟩ := by
    unfold parseBlockStep
    dsimp only
    rw [h1]
    dsimp only
    rw [if_neg (by rw [he1]; exact Bool.false_ne_true)]
    simp [dictSet]
  have hs2 : parseBlockStep csvReader jsonLoads ⟨[(n, e1)], c1, []⟩ (1, g2)
      = ⟨[(n, e2)], c2, []⟩ := by
    unfold parseBlockStep
    dsimp only
    rw [h2]
    dsimp only
    rw [if_neg (by rw [he2]; exact Bool.false_ne_true)]
    simp [dictSet]
  unfold parseBlocksResult parseBlocksState
  dsimp only
  rw [parseBlocksGo, hs1, parseBlocksGo, hs2, parseBlocksGo]
  rfl

/-- Witness for C10: two logins blocks; only the second block's record
survives. -/
theorem same_table_overwritten_witness :
    blockOutcome csvModel jsonNone 0
        "title;username_value;password_value;origin_url\n;dXNlcg==;cGFzcw==;"
      = .table "logins" [[("username_value", PyVal.str "user"),
          ("password_value", PyVal.str "pass")]] 0 ∧
    blockOutcome csvModel jsonNone 0
        "title;username_value;password_value;origin_url\n;Qg==;Qg==;"
      = .table "logins" [[("username_value", PyVal.str "B"),
          ("password_value", PyVal.str "B")]] 0 ∧
    parseBlocksResult csvModel jsonNone
        ["title;username_value;password_value;origin_url\n;dXNlcg==;cGFzcw==;",
          "title;username_value;password_value;origin_url\n;Qg==;Qg==;"]
      = .ok [("logins", [[("username_value", PyVal.str "B"),
          ("password_value", PyVal.str "B")]])] :=
  ⟨by decide, by decide,
    same_table_overwritten csvModel jsonNone
      "title;username_value;password_value;origin_url\n;dXNlcg==;cGFzcw==;"
      "title;username_value;password_value;origin_url\n;Qg==;Qg==;"
      "logins"
      [[("username_value", PyVal.str "user"),
        ("password_value", PyVal.str "pass")]]
      [[("username_value", PyVal.str "B"), ("password_value", PyVal.str "B")]]
      0 0 (by decide) (by decide) (by decide) (by decide)⟩

/-! ## C5: short envelopes -/

/-- C5 counterexample: on an input whose decoded binary buffer is 1 byte
(shorter than 36), `decrypt_and_parse` fails with the combined
bad-password / corrupt-file `ValueError` — there is no distinct
`FormatError("envelope too short")`; no length check exists and the
failure only arises when the cipher rejects the short IV. -/
theorem short_envelope_no_format_error :
    decrypt_and_parse kdfZero aesId csvModel jsonNone (utf8Encode "QQ==") "pw"
        = .error (.valueError combinedErrMsg) ∧
      (b64decodePy (pythonStrip "QQ==")).map List.length = some 1 ∧
      combinedErrMsg ≠ "envelope too short" := by
  refine ⟨by decide, by decide, by decide⟩

/-- C5 (amended): for every input whose outer-decoded binary buffer is
shorter than 36 bytes, `decrypt_and_parse` fails — but with the combined
bad-password / corrupt-file `ValueError` (raised when `AES.new` rejects
the truncated IV, or the key length check fails first), not with a
dedicated "envelope too short" error; and for buffers of at least 36
bytes, the slices are exactly 20 salt bytes, 16 IV bytes and the
remainder as ciphertext. -/
theorem short_envelope_combined_error {J : Type} (kdf : Kdf) (aes : AesCbc)
    (csvReader : CsvReader) (jsonLoads : String → Option J)
    (file_content_bytes : List Nat) (password : String)
    (txt : String) (binary : List Nat)
    (hu : utf8DecodeStr file_content_bytes = some txt)
    (hb : b64decodePy (pythonStrip txt) = some binary)
    (hlen : binary.length < 36) :
    decrypt_and_parse kdf aes csvReader jsonLoads file_content_bytes password
        = .error (.valueError combinedErrMsg) ∧
      ∀ binary2 : List Nat, 36 ≤ binary2.length →
        (sliceEnvelope binary2).1.length = 20 ∧
          (sliceEnvelope binary2).2.1.length = 16 ∧
          (sliceEnvelope binary2).1 ++ (sliceEnvelope binary2).2.1
              ++ (sliceEnvelope binary2).2.2 = binary2 := by
  constructor
  · have hivlen : ((binary.drop 20).take 16).length ≠ 16 := by
      simp only [List.length_take, List.length_drop]
      omega
    by_cases hkey : ¬((kdf password (binary.take 20) 70000 32).length = 16 ∨
        (kdf password (binary.take 20) 70000 32).length = 24 ∨
        (kdf password (binary.take 20) 70000 32).length = 32)
    · have hstage : decryptBinaryStage kdf aes csvReader jsonLoads password
          binary = .error (.valueError "Incorrect AES key length") := by
        unfold decryptBinaryStage sliceEnvelope
        dsimp only
        rw [if_pos hkey]
      unfold decrypt_and_parse decryptAndParseBody
      simp only [hu, hb, hstage]
      rfl
    · have hstage : decryptBinaryStage kdf aes csvReader jsonLoads password
          binary = .error
            (.valueError "Incorrect IV length (it must be 16 bytes long)") := by
        unfold decryptBinaryStage sliceEnvelope
        dsimp only
        rw [if_neg hkey, if_pos hivlen]
      unfold decrypt_and_parse decryptAndParseBody
      simp only [hu, hb, hstage]
      rfl
  · intro binary2 h36
    unfold sliceEnvelope
    refine ⟨?_, ?_, ?_⟩
    · simp only [List.length_take]
      omega
    · simp only [List.length_take, List.length_drop]
      omega
    · have hd : (binary2.drop 20).drop 16 = binary2.drop 36 := by
        rw [List.drop_drop]
      rw [← hd, List.append_assoc, List.take_append_drop,
        List.take_append_drop]

/-- Witness for C5 (amended) at the 1-byte envelope `QQ==` and a 40-byte
buffer for the slicing part. -/
theorem short_envelope_combined_error_witness :
    utf8DecodeStr (utf8Encode "QQ==") = some "QQ==" ∧
      b64decodePy (pythonStrip "QQ==") = some [65] ∧
      decrypt_and_parse kdfZero aesId csvModel jsonNone (utf8Encode "QQ==")
          "pw" = .error (.valueError combinedErrMsg) ∧
      (sliceEnvelope (List.replicate 40 7)).1.length = 20 :=
  have h := short_envelope_combined_error kdfZero aesId csvModel jsonNone
    (utf8Encode "QQ==") "pw" "QQ==" [65] (by decide) (by decide) (by decide)
  ⟨by decide, by decide, h.1, (h.2 (List.replicate 40 7) (by simp)).1⟩

/-! ## C1: the no-data error is masked at the pipeline boundary -/

/-- C1 (code bug): on an input whose envelope decodes, decrypts and unpads
to the valid UTF-8 plaintext `hello`, the parse step raises the no-data
`ValueError` — but `decrypt_and_parse` surfaces the combined
bad-password / corrupt-file message instead, because its
`except (ValueError, binascii.Error)` clause catches the no-data
`ValueError` raised by `parse_decrypted_content` and replaces it.  The
no-data kind never reaches the pipeline boundary, contradicting the
spec's three distinct exit conditions. -/
theorem noData_error_masked_at_boundary :
    b64decodePy (pythonStrip c1FileB64) = some c1Binary ∧
      decryptBinaryStage kdfZero aesId csvModel jsonNone "pw" c1Binary
        = .error (.valueError noDataMsg) ∧
      parse_decrypted_content csvModel jsonNone "hello"
        = .error (.valueError noDataMsg) ∧
      decrypt_and_parse kdfZero aesId csvModel jsonNone
          (utf8Encode c1FileB64) "pw"
        = .error (.valueError combinedErrMsg) ∧
      combinedErrMsg ≠ noDataMsg := by
  have h1 : utf8DecodeStr (utf8Encode c1FileB64) = some c1FileB64 := by decide
  have h2 : b64decodePy (pythonStrip c1FileB64) = some c1Binary := by decide
  have h3 : decryptBinaryStage kdfZero aesId csvModel jsonNone "pw" c1Binary
      = .error (.valueError noDataMsg) := by decide
  refine ⟨h2, h3, by decide, ?_, by decide⟩
  unfold decrypt_and_parse decryptAndParseBody
  simp only [h1, h2, h3]
  rfl
